import Mathlib

/-!
Shallow embedding of the radion RTL-SDR wrapper library (Rust) in Lean 4.

Byte buffers are `List Nat` whose elements are bytes (< 256); Rust `String`
values are `List Nat` of Unicode scalar values; native C status codes are
`Int`.  Fallible Rust functions returning `Result` are embedded as `Except
Error`; the EEPROM string-descriptor parser can additionally panic (an
out-of-bounds slice index), so it returns the three-valued `POut`.
-/

namespace Radion

/-- The error enumeration of `src/error.rs`. -/
inductive Error where
  | Io
  | InvalidParam
  | Access
  | NoDevice
  | NotFound
  | Busy
  | Timeout
  | Overflow
  | Pipe
  | Interrupted
  | NoMem
  | NotSupported
  | NoValidEEPROMHeader
  | StringValueTooLong
  | StringDescriptorInvalid
  | StringDescriptorTooLong
  | Unknown
deriving DecidableEq, Repr

/-- `impl From<c_int> for Error` of `src/error.rs`: the native status code
to error-kind translation. -/
def errorFromCode (e : Int) : Error :=
  if e = -1 then Error.Io
  else if e = -2 then Error.InvalidParam
  else if e = -3 then Error.Access
  else if e = -4 then Error.NoDevice
  else if e = -5 then Error.NotFound
  else if e = -6 then Error.Busy
  else if e = -7 then Error.Timeout
  else if e = -8 then Error.Overflow
  else if e = -9 then Error.Pipe
  else if e = -10 then Error.Interrupted
  else if e = -11 then Error.NoMem
  else if e = -12 then Error.NotSupported
  else if e = -13 then Error.NoValidEEPROMHeader
  else if e = -14 then Error.StringValueTooLong
  else if e = -15 then Error.StringDescriptorInvalid
  else if e = -16 then Error.StringDescriptorTooLong
  else Error.Unknown

/-- Outcome of Rust code that can return `Ok`, return `Err`, or panic. -/
inductive POut (α : Type) where
  | ok : α → POut α
  | err : Error → POut α
  | panicked : POut α
deriving DecidableEq, Repr

/-- Map over the `ok` value of a `POut`. -/
def POut.map {α β : Type} (f : α → β) : POut α → POut β
  | .ok a => .ok (f a)
  | .err e => .err e
  | .panicked => .panicked

/-- `MAX_STR_SIZE` of `src/utils.rs`. -/
def MAX_STR_SIZE : Nat := 35

/-- `STR_OFFSET_START` of `src/utils.rs` (0x09). -/
def STR_OFFSET_START : Nat := 9

/-- `EEPROM_SIZE` of `src/utils.rs`. -/
def EEPROM_SIZE : Nat := 256

/-- A Unicode scalar value: what a Rust `char` (hence each element of a Rust
`String`) can hold. -/
def isScalar (c : Nat) : Bool :=
  (decide (c < 0xD800) || decide (0xE000 ≤ c)) && decide (c < 0x110000)

/-- UTF-16 encoding of one scalar value, as `char::encode_utf16` produces it:
one code unit below 0x10000, else a surrogate pair. -/
def encodeUtf16Char (c : Nat) : List Nat :=
  if c < 0x10000 then [c]
  else [0xD800 + (c - 0x10000) / 0x400, 0xDC00 + (c - 0x10000) % 0x400]

/-- `str::encode_utf16` on a string of scalar values. -/
def encodeUtf16 (s : List Nat) : List Nat :=
  s.flatMap encodeUtf16Char

/-- UTF-16 decoding as `String::from_utf16` performs it: `none` exactly on
unpaired surrogates. -/
def decodeUtf16 : List Nat → Option (List Nat)
  | [] => some []
  | u :: rest =>
    if u < 0xD800 ∨ 0xE000 ≤ u then
      (decodeUtf16 rest).map (u :: ·)
    else if u < 0xDC00 then
      match rest with
      | [] => none
      | v :: rest2 =>
        if 0xDC00 ≤ v ∧ v < 0xE000 then
          (decodeUtf16 rest2).map ((0x10000 + (u - 0xD800) * 0x400 + (v - 0xDC00)) :: ·)
        else none
    else none

/-- `u16::to_le_bytes`: the two little-endian bytes of a 16-bit value. -/
def leBytes16 (u : Nat) : List Nat :=
  [u % 256, u / 256 % 256]

/-- The `chunks(2)` / `u16::from_le_bytes([pair[0], pair[1]])` pipeline of
`parse_string_descriptors`: `none` models the Rust panic that indexing
`pair[1]` raises on the final one-byte chunk of an odd-length payload. -/
def chunksToUnits : List Nat → Option (List Nat)
  | [] => some []
  | [_] => none
  | a :: b :: rest => (chunksToUnits rest).map ((a + 256 * b) :: ·)

/-- The `HwInfo` struct of `src/hw_info.rs`.  `vendor_id` and `product_id`
are `u16` (values below 2^16); the three strings are Rust `String`s, i.e.
lists of Unicode scalar values. -/
structure HwInfo where
  vendor_id : Nat
  product_id : Nat
  manufact : List Nat
  product : List Nat
  serial : List Nat
  have_serial : Bool
  enable_ir : Bool
  remote_wakeup : Bool
deriving DecidableEq, Repr

/-- Overwrite `bs.length` bytes of `d` starting at index `pos`: the
contiguous in-bounds index assignments `d[pos + i] = bs[i]` of the Rust
serializer, as one list operation. -/
def writeBytes (d : List Nat) (pos : Nat) (bs : List Nat) : List Nat :=
  d.take pos ++ bs ++ d.drop (pos + bs.length)

/-- One string descriptor as `serialize_string_descriptors` writes it at
`data[pos..pos+length]`: the length byte (`length as u8`), the type byte
0x03, then the UTF-16LE payload. -/
def descBytes (utf16 : List Nat) : List Nat :=
  (utf16.length * 2 + 2) % 256 :: 0x03 :: utf16.flatMap leBytes16

/-- The loop of `serialize_string_descriptors` (src/utils.rs): one iteration
per remaining string, tracking the write position `pos`. -/
def serializeGo (d : List Nat) (pos : Nat) : List (List Nat) → Except Error (List Nat)
  | [] => .ok d
  | s :: rest =>
    let utf16 := encodeUtf16 s
    let length := utf16.length * 2 + 2
    if length > MAX_STR_SIZE * 2 + 2 then .error Error.StringValueTooLong
    else if pos + length > d.length then .error Error.StringDescriptorTooLong
    else serializeGo (writeBytes d pos (descBytes utf16)) (pos + length) rest

/-- `serialize_string_descriptors` of `src/utils.rs`: writes the manufact,
product and serial descriptors into `data` starting at `STR_OFFSET_START`,
returning the updated buffer. -/
def serialize_string_descriptors (data : List Nat) (info : HwInfo) : Except Error (List Nat) :=
  serializeGo data STR_OFFSET_START [info.manufact, info.product, info.serial]

/-- The loop of `parse_string_descriptors` (src/utils.rs): one iteration per
remaining descriptor count, tracking the read position `pos`.  `panicked`
models the out-of-bounds `pair[1]` index on an odd-length payload. -/
def parseGo (data : List Nat) (pos : Nat) : Nat → POut (List (List Nat))
  | 0 => .ok []
  | n + 1 =>
    if pos + 2 > data.length then .err Error.StringDescriptorInvalid
    else
      let length := data.getD pos 0
      if length < 2 ∨ pos + length > data.length then .err Error.StringDescriptorInvalid
      else if data.getD (pos + 1) 0 ≠ 0x03 then .err Error.StringDescriptorInvalid
      else
        match chunksToUnits ((data.drop (pos + 2)).take (length - 2)) with
        | none => .panicked
        | some units =>
          match decodeUtf16 units with
          | none => .err Error.StringDescriptorInvalid
          | some s => (parseGo data (pos + length) n).map (s :: ·)

/-- `parse_string_descriptors` of `src/utils.rs`: three descriptors starting
at `STR_OFFSET_START`; the dead `strings.len() != 3` branch returns
`Error::Unknown`. -/
def parse_string_descriptors (data : List Nat) : POut (List Nat × List Nat × List Nat) :=
  match parseGo data STR_OFFSET_START 3 with
  | .ok [a, b, c] => .ok (a, b, c)
  | .ok _ => .err Error.Unknown
  | .err e => .err e
  | .panicked => .panicked

/-- The buffer `Device::set_hw_info` (src/device.rs) builds before calling
`write_eeprom`: a zeroed 256-byte image, the magic header, the little-endian
ids, the serial sentinel, the flag byte, then the serialized descriptors. -/
def set_hw_info_buffer (info : HwInfo) : Except Error (List Nat) :=
  let data := List.replicate EEPROM_SIZE 0
  let data := writeBytes data 0
    [0x28, 0x32,
     info.vendor_id % 256, info.vendor_id / 256 % 256,
     info.product_id % 256, info.product_id / 256 % 256,
     if info.have_serial then 0xA5 else 0x00,
     (if info.remote_wakeup then 0x01 else 0x00) ||| (if info.enable_ir then 0x02 else 0x00)]
  serialize_string_descriptors data info

/-- The pure part of `Device::get_hw_info` (src/device.rs): field extraction
from an EEPROM image already read from the device. -/
def get_hw_info_parse (data : List Nat) : POut HwInfo :=
  if data.length < STR_OFFSET_START then .err Error.NoValidEEPROMHeader
  else if data.getD 0 0 ≠ 0x28 ∨ data.getD 1 0 ≠ 0x32 then .err Error.NoValidEEPROMHeader
  else
    let vendor_id := data.getD 2 0 + 256 * data.getD 3 0
    let product_id := data.getD 4 0 + 256 * data.getD 5 0
    let have_serial := data.getD 6 0 = 0xA5
    let remote_wakeup := data.getD 7 0 &&& 0x01 ≠ 0
    let enable_ir := data.getD 7 0 &&& 0x02 ≠ 0
    match parse_string_descriptors data with
    | .ok (manufact, product, serial) =>
      .ok { vendor_id, product_id, manufact, product, serial,
            have_serial, enable_ir, remote_wakeup }
    | .err e => .err e
    | .panicked => .panicked

/-- `Device::set_hw_info` with the native `rtlsdr_write_eeprom` status as an
oracle: the `Bool` records whether the EEPROM write was invoked at all. -/
def set_hw_info_model (info : HwInfo) (write_ret : Int) : Bool × Except Error Unit :=
  match set_hw_info_buffer info with
  | .error e => (false, .error e)
  | .ok _ => (true, if 0 ≤ write_ret then .ok () else .error (errorFromCode write_ret))

/-- The `RTLSDRTuner` enumeration of `src/tuner.rs`. -/
inductive RTLSDRTuner where
  | Unknown
  | E4000
  | FC0012
  | FC0013
  | FC2580
  | R820T
  | R828D
deriving DecidableEq, Repr

/-- `impl TryFrom<c_int> for RTLSDRTuner` of `src/tuner.rs`. -/
def RTLSDRTuner.tryFrom (value : Int) : Except Error RTLSDRTuner :=
  if value = 0 then .ok RTLSDRTuner.Unknown
  else if value = 1 then .ok RTLSDRTuner.E4000
  else if value = 2 then .ok RTLSDRTuner.FC0012
  else if value = 3 then .ok RTLSDRTuner.FC0013
  else if value = 4 then .ok RTLSDRTuner.FC2580
  else if value = 5 then .ok RTLSDRTuner.R820T
  else if value = 6 then .ok RTLSDRTuner.R828D
  else .error Error.Unknown

/-!
Status-code handling of the `Device` wrappers (src/device.rs).  Each wrapper
passes its arguments to one native call and translates that call's integer
status; the status is the model's parameter.
-/

/-- Status handling of `Device::set_xtal_freq`. -/
def set_xtal_freq_result (ret : Int) : Except Error Unit :=
  if ret = 0 then .ok () else .error (errorFromCode ret)

/-- Status handling of `Device::set_center_freq`. -/
def set_center_freq_result (ret : Int) : Except Error Unit :=
  if ret = 0 then .ok () else .error (errorFromCode ret)

/-- Status handling of `Device::set_freq_correction`. -/
def set_freq_correction_result (ret : Int) : Except Error Unit :=
  if ret = 0 then .ok () else .error (errorFromCode ret)

/-- Status handling of `Device::set_tuner_gain`. -/
def set_tuner_gain_result (ret : Int) : Except Error Unit :=
  if ret = 0 then .ok () else .error (errorFromCode ret)

/-- Status handling of `Device::set_tuner_bandwidth`. -/
def set_tuner_bandwidth_result (ret : Int) : Except Error Unit :=
  if ret = 0 then .ok () else .error (errorFromCode ret)

/-- Status handling of `Device::set_tuner_if_gain`. -/
def set_tuner_if_gain_result (ret : Int) : Except Error Unit :=
  if ret = 0 then .ok () else .error (errorFromCode ret)

/-- Status handling of `Device::set_tuner_gain_mode`. -/
def set_tuner_gain_mode_result (ret : Int) : Except Error Unit :=
  if ret = 0 then .ok () else .error (errorFromCode ret)

/-- Status handling of `Device::set_sample_rate`. -/
def set_sample_rate_result (ret : Int) : Except Error Unit :=
  if ret = 0 then .ok () else .error (errorFromCode ret)

/-- Status handling of `Device::set_test_mode`. -/
def set_test_mode_result (ret : Int) : Except Error Unit :=
  if ret = 0 then .ok () else .error (errorFromCode ret)

/-- Status handling of `Device::set_agc_mode`. -/
def set_agc_mode_result (ret : Int) : Except Error Unit :=
  if ret = 0 then .ok () else .error (errorFromCode ret)

/-- Status handling of `Device::set_direct_sampling`. -/
def set_direct_sampling_result (ret : Int) : Except Error Unit :=
  if ret = 0 then .ok () else .error (errorFromCode ret)

/-- Status handling of `Device::set_offset_tuning`. -/
def set_offset_tuning_result (ret : Int) : Except Error Unit :=
  if ret = 0 then .ok () else .error (errorFromCode ret)

/-- Status handling of `Device::reset_buffer`. -/
def reset_buffer_result (ret : Int) : Except Error Unit :=
  if ret = 0 then .ok () else .error (errorFromCode ret)

/-- Status handling of `Device::write_eeprom`: the source accepts any
non-negative status (`ret >= 0`), unlike the other setters. -/
def write_eeprom_result (ret : Int) : Except Error Unit :=
  if 0 ≤ ret then .ok () else .error (errorFromCode ret)

/-- Status handling of `Device::read_eeprom`; `buf` is the buffer the native
call filled. -/
def read_eeprom_result (ret : Int) (buf : List Nat) : Except Error (List Nat) :=
  if 0 ≤ ret then .ok buf else .error (errorFromCode ret)

/-- Status handling of `Device::get_center_freq`: a non-negative status is
the frequency itself (`freq as u32`). -/
def get_center_freq_result (ret : Int) : Except Error Nat :=
  if 0 ≤ ret then .ok ret.toNat else .error (errorFromCode ret)

/-- Status handling of `Device::get_freq_correction`. -/
def get_freq_correction_result (ret : Int) : Except Error Int :=
  if 0 ≤ ret then .ok ret else .error (errorFromCode ret)

/-- Status handling of `Device::get_tuner_gain`. -/
def get_tuner_gain_result (ret : Int) : Except Error Int :=
  if 0 ≤ ret then .ok ret else .error (errorFromCode ret)

/-- Status handling of `Device::get_sample_rate` (`rate as u32`). -/
def get_sample_rate_result (ret : Int) : Except Error Nat :=
  if 0 ≤ ret then .ok ret.toNat else .error (errorFromCode ret)

/-- Status handling of `Device::get_direct_sampling` (`ret != 0`). -/
def get_direct_sampling_result (ret : Int) : Except Error Bool :=
  if 0 ≤ ret then .ok (decide (ret ≠ 0)) else .error (errorFromCode ret)

/-- Status handling of `Device::get_offset_tuning` (`ret != 0`). -/
def get_offset_tuning_result (ret : Int) : Except Error Bool :=
  if 0 ≤ ret then .ok (decide (ret ≠ 0)) else .error (errorFromCode ret)

/-- `Device::get_tuner_gains` with the two native calls as oracles: `count`
is the first (null-pointer) call's status, `fillRet` the second call's
status, and `fillVals i` the value the second call stores at index `i` of
the `count`-element vector the wrapper allocates.  The `Bool` records
whether the second native call was issued. -/
def get_tuner_gains_model (count fillRet : Int) (fillVals : Nat → Int) :
    Bool × Except Error (List Int) :=
  if count ≤ 0 then (false, .error (errorFromCode count))
  else
    let gains := (List.range count.toNat).map fillVals
    if fillRet ≤ 0 then (true, .error (errorFromCode fillRet))
    else (true, .ok gains)

/-- `Device::get_device_name` with the native name pointer as oracle:
`none` is the null pointer; the lossy C-string conversion of a present name
is abstracted as the name itself.  The result type is `Option`, with no
error case. -/
def get_device_name_model (native_name : Option (List Nat)) : Option (List Nat) :=
  match native_name with
  | none => none
  | some s => some s

/-- Restatement of the descriptor-parsing loop on the suffix of the buffer
that starts at the current read position; `parseGo_eq_parseSuffix` relates
it to `parseGo`. -/
def parseSuffix : Nat → List Nat → POut (List (List Nat))
  | 0, _ => .ok []
  | n + 1, t =>
    if t.length < 2 then .err Error.StringDescriptorInvalid
    else
      let length := t.getD 0 0
      if length < 2 ∨ length > t.length then .err Error.StringDescriptorInvalid
      else if t.getD 1 0 ≠ 0x03 then .err Error.StringDescriptorInvalid
      else
        match chunksToUnits ((t.drop 2).take (length - 2)) with
        | none => .panicked
        | some units =>
          match decodeUtf16 units with
          | none => .err Error.StringDescriptorInvalid
          | some s => (parseSuffix n (t.drop length)).map (s :: ·)

/-- The spec's worked example record: vendor 0x0BDA, product 0x2838,
manufact "RTLSDR", product "Radio", serial "001". -/
def exInfo : HwInfo :=
  { vendor_id := 0x0BDA, product_id := 0x2838,
    manufact := [82, 84, 76, 83, 68, 82], product := [82, 97, 100, 105, 111],
    serial := [48, 48, 49],
    have_serial := true, enable_ir := false, remote_wakeup := true }

/-- A 256-byte EEPROM image whose first string descriptor declares an odd
length of 3 with a valid type byte: its one-byte payload leaves a final
one-byte chunk. -/
def oddDescriptorBuf : List Nat := ((List.replicate 256 0).set 9 3).set 10 3

/-- A 256-byte all-zero EEPROM image. -/
def zeroBuf : List Nat := List.replicate 256 0

theorem encodeUtf16_units_lt {s : List Nat} (h : ∀ c ∈ s, isScalar c = true) :
    ∀ u ∈ encodeUtf16 s, u < 65536 := by
  intro u hu
  simp only [encodeUtf16, List.mem_flatMap] at hu
  obtain ⟨c, hc, hu⟩ := hu
  have hs := h c hc
  simp only [isScalar, Bool.and_eq_true, Bool.or_eq_true, decide_eq_true_eq] at hs
  by_cases h1 : c < 0x10000
  · rw [show encodeUtf16Char c = [c] from by simp [encodeUtf16Char, h1]] at hu
    simp only [List.mem_singleton] at hu
    omega
  · rw [show encodeUtf16Char c
        = [0xD800 + (c - 0x10000) / 0x400, 0xDC00 + (c - 0x10000) % 0x400] from by
      simp [encodeUtf16Char, h1]] at hu
    simp only [List.mem_cons, List.not_mem_nil, or_false] at hu
    rcases hu with h | h <;> rw [h] <;> omega

theorem chunksToUnits_flatMap {us : List Nat} (h : ∀ u ∈ us, u < 65536) :
    chunksToUnits (us.flatMap leBytes16) = some us := by
  induction us with
  | nil => rfl
  | cons u rest ih =>
    have hu : u < 65536 := h u (by simp)
    have hflat : (u :: rest).flatMap leBytes16
        = u % 256 :: u / 256 % 256 :: rest.flatMap leBytes16 := by
      simp [leBytes16]
    rw [hflat]
    rw [chunksToUnits, ih (fun v hv => h v (by simp [hv]))]
    simp only [Option.map_some']
    congr 2
    omega

theorem decodeUtf16_encodeUtf16 {s : List Nat} (h : ∀ c ∈ s, isScalar c = true) :
    decodeUtf16 (encodeUtf16 s) = some s := by
  induction s with
  | nil => rfl
  | cons c rest ih =>
    have hc := h c (by simp)
    simp only [isScalar, Bool.and_eq_true, Bool.or_eq_true, decide_eq_true_eq] at hc
    have ihr := ih (fun x hx => h x (by simp [hx]))
    simp only [encodeUtf16, List.flatMap_cons] at ihr ⊢
    by_cases h1 : c < 0x10000
    · rw [show encodeUtf16Char c = [c] from by simp [encodeUtf16Char, h1]]
      rw [List.cons_append, List.nil_append]
      rw [decodeUtf16.eq_def]
      dsimp only
      rw [if_pos (by omega)]
      rw [ihr]
      rfl
    · rw [show encodeUtf16Char c
          = [0xD800 + (c - 0x10000) / 0x400, 0xDC00 + (c - 0x10000) % 0x400] from by
        simp [encodeUtf16Char, h1]]
      rw [List.cons_append, List.cons_append, List.nil_append]
      rw [decodeUtf16.eq_def]
      dsimp only
      rw [if_neg (by omega), if_pos (by omega)]
      rw [if_pos (by constructor <;> omega)]
      rw [ihr]
      simp only [Option.map_some']
      rw [show 0x10000 + (0xD800 + (c - 0x10000) / 0x400 - 0xD800) * 0x400
            + (0xDC00 + (c - 0x10000) % 0x400 - 0xDC00) = c from by omega]

theorem length_flatMap_leBytes16 (us : List Nat) :
    (us.flatMap leBytes16).length = 2 * us.length := by
  induction us with
  | nil => rfl
  | cons u rest ih =>
    rw [List.flatMap_cons, List.length_append, ih,
      show (leBytes16 u).length = 2 from rfl, List.length_cons]
    omega

theorem descBytes_length (u : List Nat) :
    (descBytes u).length = u.length * 2 + 2 := by
  rw [descBytes, List.length_cons, List.length_cons, length_flatMap_leBytes16]
  omega

theorem writeBytes_length {d bs : List Nat} {pos : Nat} (h : pos + bs.length ≤ d.length) :
    (writeBytes d pos bs).length = d.length := by
  simp [writeBytes]
  omega

theorem writeBytes_take {d bs : List Nat} {pos : Nat} (h : pos ≤ d.length) :
    (writeBytes d pos bs).take pos = d.take pos := by
  unfold writeBytes
  rw [List.take_append_of_le_length (by simp; omega)]
  rw [List.take_append_of_le_length (by simp; omega)]
  rw [List.take_take]
  simp

theorem writeBytes_eq_parts {d bs : List Nat} {pos : Nat} (h : pos ≤ d.length) :
    (writeBytes d pos bs).take (pos + bs.length) = d.take pos ++ bs := by
  unfold writeBytes
  rw [List.take_left' (by simp; omega)]

theorem serializeGo_length : ∀ (ss : List (List Nat)) (d d' : List Nat) (pos : Nat),
    serializeGo d pos ss = .ok d' → d'.length = d.length := by
  intro ss
  induction ss with
  | nil =>
    intro d d' pos h
    simp only [serializeGo] at h
    cases h
    rfl
  | cons s rest ih =>
    intro d d' pos h
    simp only [serializeGo] at h
    split at h
    · cases h
    · split at h
      · cases h
      · have hlen := ih _ _ _ h
        rw [hlen, writeBytes_length]
        rw [descBytes_length]
        omega

theorem serializeGo_take : ∀ (ss : List (List Nat)) (d d' : List Nat) (pos : Nat),
    serializeGo d pos ss = .ok d' → pos ≤ d.length → d'.take pos = d.take pos := by
  intro ss
  induction ss with
  | nil =>
    intro d d' pos h _
    simp only [serializeGo] at h
    cases h
    rfl
  | cons s rest ih =>
    intro d d' pos h hpos
    simp only [serializeGo] at h
    split at h
    · cases h
    · split at h
      · cases h
      · rename_i hlen2
        push_neg at hlen2
        have hwlen : (writeBytes d pos (descBytes (encodeUtf16 s))).length = d.length := by
          rw [writeBytes_length]
          rw [descBytes_length]
          omega
        have htake := ih _ _ _ h (by rw [hwlen]; omega)
        calc d'.take pos = (d'.take (pos + ((encodeUtf16 s).length * 2 + 2))).take pos := by
              rw [List.take_take]
              congr 1
              omega
          _ = ((writeBytes d pos (descBytes (encodeUtf16 s))).take
                (pos + ((encodeUtf16 s).length * 2 + 2))).take pos := by rw [htake]
          _ = (writeBytes d pos (descBytes (encodeUtf16 s))).take pos := by
              rw [List.take_take]
              congr 1
              omega
          _ = d.take pos := writeBytes_take hpos

theorem serializeGo_ok : ∀ (ss : List (List Nat)) (d : List Nat) (pos : Nat),
    (∀ s ∈ ss, (encodeUtf16 s).length ≤ MAX_STR_SIZE) →
    pos + 72 * ss.length ≤ d.length →
    ∃ d', serializeGo d pos ss = .ok d' := by
  intro ss
  induction ss with
  | nil =>
    intro d pos _ _
    exact ⟨d, rfl⟩
  | cons s rest ih =>
    intro d pos hbound hlen
    have hs : (encodeUtf16 s).length ≤ 35 := hbound s (by simp)
    have hM : MAX_STR_SIZE = 35 := rfl
    rw [List.length_cons] at hlen
    simp only [serializeGo]
    rw [if_neg (by rw [hM]; omega)]
    rw [if_neg (by omega)]
    apply ih
    · intro x hx
      exact hbound x (by simp [hx])
    · rw [writeBytes_length (by rw [descBytes_length]; omega)]
      omega

theorem serializeGo_valueTooLong : ∀ (ss : List (List Nat)) (d : List Nat) (pos : Nat),
    (∃ s ∈ ss, MAX_STR_SIZE < (encodeUtf16 s).length) →
    pos + 72 * ss.length ≤ d.length →
    serializeGo d pos ss = .error Error.StringValueTooLong := by
  intro ss
  induction ss with
  | nil =>
    intro d pos h _
    simp at h
  | cons s rest ih =>
    intro d pos hex hlen
    have hM : MAX_STR_SIZE = 35 := rfl
    rw [List.length_cons] at hlen
    simp only [serializeGo]
    by_cases hs : MAX_STR_SIZE < (encodeUtf16 s).length
    · rw [hM] at hs
      rw [if_pos (by rw [hM]; omega)]
    · rw [hM] at hs
      rw [if_neg (by rw [hM]; omega)]
      rw [if_neg (by omega)]
      apply ih
      · rcases hex with ⟨x, hx, hxl⟩
        rcases List.mem_cons.mp hx with rfl | hx2
        · rw [hM] at hxl
          omega
        · exact ⟨x, hx2, hxl⟩
      · rw [writeBytes_length (by rw [descBytes_length]; omega)]
        omega

theorem parseGo_eq_parseSuffix : ∀ (n : Nat) (d : List Nat) (pos : Nat),
    parseGo d pos n = parseSuffix n (d.drop pos) := by
  intro n
  induction n with
  | zero => intro d pos; rfl
  | succ n ih =>
    intro d pos
    have hlen : (d.drop pos).length = d.length - pos := List.length_drop pos d
    have g0 : (d.drop pos).getD 0 0 = d.getD pos 0 := by
      rw [List.getD_eq_getElem?_getD, List.getD_eq_getElem?_getD, List.getElem?_drop,
        Nat.add_zero]
    have g1 : (d.drop pos).getD 1 0 = d.getD (pos + 1) 0 := by
      rw [List.getD_eq_getElem?_getD, List.getD_eq_getElem?_getD, List.getElem?_drop]
    simp only [parseGo, parseSuffix, g0, g1]
    by_cases h1 : pos + 2 > d.length
    · rw [if_pos h1,
        if_pos (show (d.drop pos).length < 2 from by rw [hlen]; omega)]
    · rw [if_neg h1,
        if_neg (show ¬((d.drop pos).length < 2) from by rw [hlen]; omega)]
      by_cases h2 : d.getD pos 0 < 2 ∨ pos + d.getD pos 0 > d.length
      · rw [if_pos h2,
          if_pos (show d.getD pos 0 < 2 ∨ d.getD pos 0 > (d.drop pos).length from by
            rw [hlen]; omega)]
      · rw [if_neg h2,
          if_neg (show ¬(d.getD pos 0 < 2 ∨ d.getD pos 0 > (d.drop pos).length) from by
            rw [hlen]; omega)]
        by_cases h3 : d.getD (pos + 1) 0 ≠ 0x03
        · rw [if_pos h3, if_pos h3]
        · rw [if_neg h3, if_neg h3]
          rw [List.drop_drop]
          cases hc : chunksToUnits ((d.drop (pos + 2)).take (d.getD pos 0 - 2)) with
          | none => rfl
          | some units =>
            cases hdec : decodeUtf16 units with
            | none =>
              dsimp only
              rw [hdec]
            | some s =>
              dsimp only
              rw [hdec]
              dsimp only
              rw [List.drop_drop, ih]

theorem parseSuffix_cons (s T : List Nat) (n : Nat)
    (hsc : ∀ c ∈ s, isScalar c = true) (hs2 : (encodeUtf16 s).length ≤ 35) :
    parseSuffix (n + 1) (descBytes (encodeUtf16 s) ++ T)
      = (parseSuffix n T).map (s :: ·) := by
  have hdb : (descBytes (encodeUtf16 s)).length = (encodeUtf16 s).length * 2 + 2 :=
    descBytes_length _
  have hflatlen : ((encodeUtf16 s).flatMap leBytes16).length = 2 * (encodeUtf16 s).length :=
    length_flatMap_leBytes16 _
  have hg0 : (descBytes (encodeUtf16 s) ++ T).getD 0 0 = (encodeUtf16 s).length * 2 + 2 := by
    rw [List.getD_append _ _ _ _ (by rw [hdb]; omega)]
    rw [show (descBytes (encodeUtf16 s)).getD 0 0
        = ((encodeUtf16 s).length * 2 + 2) % 256 from rfl]
    exact Nat.mod_eq_of_lt (by omega)
  have hg1 : (descBytes (encodeUtf16 s) ++ T).getD 1 0 = 0x03 := by
    rw [List.getD_append _ _ _ _ (by rw [hdb]; omega)]
    rfl
  have hlen : (descBytes (encodeUtf16 s) ++ T).length
      = (encodeUtf16 s).length * 2 + 2 + T.length := by
    rw [List.length_append, hdb]
  simp only [parseSuffix, hg0, hg1, hlen]
  rw [if_neg (by omega)]
  rw [if_neg (by omega)]
  rw [if_neg (by omega)]
  rw [List.drop_append_of_le_length (by rw [hdb]; omega)]
  rw [show (descBytes (encodeUtf16 s)).drop 2 = (encodeUtf16 s).flatMap leBytes16 from rfl]
  rw [List.take_left' (by rw [hflatlen]; omega)]
  rw [chunksToUnits_flatMap (encodeUtf16_units_lt hsc)]
  dsimp only
  rw [decodeUtf16_encodeUtf16 hsc]
  dsimp only
  rw [List.drop_left' hdb]

theorem parseSuffix_serializeGo : ∀ (ss : List (List Nat)) (d d' : List Nat) (pos : Nat),
    (∀ s ∈ ss, (∀ c ∈ s, isScalar c = true) ∧ (encodeUtf16 s).length ≤ MAX_STR_SIZE) →
    pos ≤ d.length →
    serializeGo d pos ss = .ok d' →
    parseSuffix ss.length (d'.drop pos) = .ok ss := by
  intro ss
  induction ss with
  | nil =>
    intro d d' pos _ _ h
    simp only [serializeGo] at h
    cases h
    rfl
  | cons s rest ih =>
    intro d d' pos hwf hpos hser
    have hs := hwf s (by simp)
    have hsc : ∀ c ∈ s, isScalar c = true := hs.1
    have hs2 : (encodeUtf16 s).length ≤ 35 := hs.2
    have hM : MAX_STR_SIZE = 35 := rfl
    simp only [serializeGo] at hser
    rw [if_neg (by rw [hM]; omega)] at hser
    by_cases hb : pos + ((encodeUtf16 s).length * 2 + 2) > d.length
    · rw [if_pos hb] at hser
      cases hser
    · rw [if_neg hb] at hser
      have hdb : (descBytes (encodeUtf16 s)).length = (encodeUtf16 s).length * 2 + 2 :=
        descBytes_length _
      have hwblen : (writeBytes d pos (descBytes (encodeUtf16 s))).length = d.length :=
        writeBytes_length (by rw [hdb]; omega)
      have hd'len : d'.length = d.length := by
        rw [serializeGo_length rest _ _ _ hser, hwblen]
      have htake : d'.take (pos + ((encodeUtf16 s).length * 2 + 2))
          = d.take pos ++ descBytes (encodeUtf16 s) := by
        rw [serializeGo_take rest _ _ _ hser (by rw [hwblen]; omega)]
        rw [show pos + ((encodeUtf16 s).length * 2 + 2)
            = pos + (descBytes (encodeUtf16 s)).length from by rw [hdb]]
        exact writeBytes_eq_parts hpos
      have hdrop : d'.drop pos
          = descBytes (encodeUtf16 s)
            ++ d'.drop (pos + ((encodeUtf16 s).length * 2 + 2)) := by
        conv_lhs =>
          rw [← List.take_append_drop (pos + ((encodeUtf16 s).length * 2 + 2)) d']
        rw [List.drop_append_of_le_length (by rw [List.length_take]; omega)]
        rw [htake]
        rw [List.drop_left' (by rw [List.length_take]; omega)]
      rw [List.length_cons, hdrop, parseSuffix_cons s _ _ hsc hs2]
      rw [ih _ _ _ (fun x hx => hwf x (by simp [hx])) (by rw [hwblen]; omega) hser]
      rfl

theorem getD_eq_of_take_eq {l l' : List Nat} {n i : Nat} (h : l.take n = l'.take n)
    (hi : i < n) : l.getD i 0 = l'.getD i 0 := by
  rw [List.getD_eq_getElem?_getD, List.getD_eq_getElem?_getD,
    ← List.getElem?_take_of_lt (l := l) hi, ← List.getElem?_take_of_lt (l := l') hi, h]

theorem parse_of_serializeGo {d0 d m pr se : List Nat}
    (hm : ∀ c ∈ m, isScalar c = true)
    (hpr : ∀ c ∈ pr, isScalar c = true)
    (hse : ∀ c ∈ se, isScalar c = true)
    (lm : (encodeUtf16 m).length ≤ 35)
    (lp : (encodeUtf16 pr).length ≤ 35)
    (ls : (encodeUtf16 se).length ≤ 35)
    (hpos : STR_OFFSET_START ≤ d0.length)
    (hser : serializeGo d0 STR_OFFSET_START [m, pr, se] = .ok d) :
    parse_string_descriptors d = .ok (m, pr, se) := by
  have hsuffix := parseSuffix_serializeGo [m, pr, se] d0 d STR_OFFSET_START ?_ hpos hser
  · simp only [parse_string_descriptors, parseGo_eq_parseSuffix]
    simp only [List.length_cons, List.length_nil] at hsuffix
    rw [hsuffix]
  · intro x hx
    simp only [List.mem_cons, List.not_mem_nil, or_false] at hx
    rcases hx with rfl | rfl | rfl
    · exact ⟨hm, lm⟩
    · exact ⟨hpr, lp⟩
    · exact ⟨hse, ls⟩

/-- C1: for every hardware-info record whose three strings each encode to at
most 35 UTF-16 code units, building the 256-byte EEPROM image as
`set_hw_info` does and parsing it back as `get_hw_info` does returns the
record unchanged in all eight fields. -/
theorem hw_info_roundtrip (info : HwInfo)
    (hv : info.vendor_id < 65536) (hp : info.product_id < 65536)
    (hm : ∀ c ∈ info.manufact, isScalar c = true)
    (hpr : ∀ c ∈ info.product, isScalar c = true)
    (hse : ∀ c ∈ info.serial, isScalar c = true)
    (lm : (encodeUtf16 info.manufact).length ≤ 35)
    (lp : (encodeUtf16 info.product).length ≤ 35)
    (ls : (encodeUtf16 info.serial).length ≤ 35) :
    ∃ d, set_hw_info_buffer info = .ok d ∧ get_hw_info_parse d = POut.ok info := by
  obtain ⟨v, pid, m, pr, se, hsf, eif, rwf⟩ := info
  simp only at hv hp hm hpr hse lm lp ls
  have hrep : (List.replicate EEPROM_SIZE (0 : Nat)).length = 256 := by
    rw [List.length_replicate]
    rfl
  have hwb8 : (0 : Nat) + ([0x28, 0x32, v % 256, v / 256 % 256, pid % 256, pid / 256 % 256,
      if hsf then 0xA5 else 0x00,
      (if rwf then 0x01 else 0x00) ||| (if eif then 0x02 else 0x00)] : List Nat).length
      ≤ (List.replicate EEPROM_SIZE (0 : Nat)).length := by
    rw [hrep]
    simp only [List.length_cons, List.length_nil]
    omega
  have hd0len : (writeBytes (List.replicate EEPROM_SIZE 0) 0
      [0x28, 0x32, v % 256, v / 256 % 256, pid % 256, pid / 256 % 256,
       if hsf then 0xA5 else 0x00,
       (if rwf then 0x01 else 0x00) ||| (if eif then 0x02 else 0x00)]).length = 256 := by
    rw [writeBytes_length hwb8, hrep]
  obtain ⟨d, hd⟩ := serializeGo_ok [m, pr, se]
    (writeBytes (List.replicate EEPROM_SIZE 0) 0
      [0x28, 0x32, v % 256, v / 256 % 256, pid % 256, pid / 256 % 256,
       if hsf then 0xA5 else 0x00,
       (if rwf then 0x01 else 0x00) ||| (if eif then 0x02 else 0x00)])
    STR_OFFSET_START
    (by intro x hx
        simp only [List.mem_cons, List.not_mem_nil, or_false] at hx
        rcases hx with rfl | rfl | rfl <;> assumption)
    (by rw [hd0len]
        simp only [List.length_cons, List.length_nil, STR_OFFSET_START]
        omega)
  have hok : set_hw_info_buffer
      { vendor_id := v, product_id := pid, manufact := m, product := pr, serial := se,
        have_serial := hsf, enable_ir := eif, remote_wakeup := rwf } = .ok d := hd
  refine ⟨d, hok, ?_⟩
  have hdlen : d.length = 256 := by
    rw [serializeGo_length _ _ _ _ hd, hd0len]
  have htake := serializeGo_take _ _ _ _ hd
    (by rw [hd0len]; simp only [STR_OFFSET_START]; omega)
  have hdg : ∀ i, i < STR_OFFSET_START → d.getD i 0
      = (writeBytes (List.replicate EEPROM_SIZE 0) 0
        [0x28, 0x32, v % 256, v / 256 % 256, pid % 256, pid / 256 % 256,
         if hsf then 0xA5 else 0x00,
         (if rwf then 0x01 else 0x00) ||| (if eif then 0x02 else 0x00)]).getD i 0 :=
    fun i hi => getD_eq_of_take_eq htake hi
  have hST : ∀ i, i < 9 → i < STR_OFFSET_START := fun i hi => hi
  have b0 : d.getD 0 0 = 0x28 := by rw [hdg 0 (hST 0 (by omega))]; rfl
  have b1 : d.getD 1 0 = 0x32 := by rw [hdg 1 (hST 1 (by omega))]; rfl
  have b2 : d.getD 2 0 = v % 256 := by rw [hdg 2 (hST 2 (by omega))]; rfl
  have b3 : d.getD 3 0 = v / 256 % 256 := by rw [hdg 3 (hST 3 (by omega))]; rfl
  have b4 : d.getD 4 0 = pid % 256 := by rw [hdg 4 (hST 4 (by omega))]; rfl
  have b5 : d.getD 5 0 = pid / 256 % 256 := by rw [hdg 5 (hST 5 (by omega))]; rfl
  have b6 : d.getD 6 0 = if hsf then 0xA5 else 0x00 := by
    rw [hdg 6 (hST 6 (by omega))]
    cases hsf <;> rfl
  have b7 : d.getD 7 0 = (if rwf then 0x01 else 0x00) ||| (if eif then 0x02 else 0x00) := by
    rw [hdg 7 (hST 7 (by omega))]
    cases rwf <;> cases eif <;> rfl
  have hps : parse_string_descriptors d = .ok (m, pr, se) :=
    parse_of_serializeGo hm hpr hse lm lp ls
      (by rw [hd0len]; simp only [STR_OFFSET_START]; omega) hd
  simp only [get_hw_info_parse]
  rw [if_neg (by rw [hdlen]; simp only [STR_OFFSET_START]; omega)]
  rw [if_neg (by rw [b0, b1]; simp)]
  rw [hps]
  simp only [POut.ok.injEq, HwInfo.mk.injEq, b2, b3, b4, b5, b6, b7]
  refine ⟨by omega, by omega, trivial, trivial, trivial, ?_, ?_, ?_⟩ <;>
    cases hsf <;> cases rwf <;> cases eif <;> rfl

set_option maxRecDepth 4000 in
/-- Witness for C1 at the spec's worked example record. -/
theorem hw_info_roundtrip_witness :
    ∃ d, set_hw_info_buffer exInfo = .ok d ∧ get_hw_info_parse d = POut.ok exInfo :=
  hw_info_roundtrip exInfo (by decide) (by decide) (by decide) (by decide) (by decide)
    (by decide) (by decide) (by decide)

set_option maxRecDepth 10000 in
/-- C2: on a 256-byte image whose first descriptor declares the odd length 3
with a valid type byte, `parse_string_descriptors` panics (the out-of-bounds
`pair[1]` index on the final one-byte chunk) instead of returning the
`StringDescriptorInvalid` error. -/
theorem parse_panics_on_odd_length :
    parse_string_descriptors oddDescriptorBuf = POut.panicked := by decide

/-- C3 counterexample: `write_eeprom` maps the nonzero native status 1 to
`Ok`, so the claim that every setter returns `Ok` only for status exactly
zero fails at `write_eeprom`. -/
theorem write_eeprom_ok_at_positive_status :
    write_eeprom_result 1 = Except.ok () ∧ (1 : Int) ≠ 0 := by
  constructor
  · rfl
  · decide

/-- C3 (amended): the thirteen setters other than `write_eeprom` return `Ok`
exactly on status zero and the mapped error exactly on nonzero status;
`write_eeprom` and every value-returning getter return `Ok` exactly on
non-negative status and the mapped error exactly on negative status. -/
theorem status_code_mapping (ret : Int) :
    (set_xtal_freq_result ret = .ok () ↔ ret = 0) ∧
    (set_xtal_freq_result ret = .error (errorFromCode ret) ↔ ret ≠ 0) ∧
    (set_center_freq_result ret = .ok () ↔ ret = 0) ∧
    (set_center_freq_result ret = .error (errorFromCode ret) ↔ ret ≠ 0) ∧
    (set_freq_correction_result ret = .ok () ↔ ret = 0) ∧
    (set_freq_correction_result ret = .error (errorFromCode ret) ↔ ret ≠ 0) ∧
    (set_tuner_gain_result ret = .ok () ↔ ret = 0) ∧
    (set_tuner_gain_result ret = .error (errorFromCode ret) ↔ ret ≠ 0) ∧
    (set_tuner_bandwidth_result ret = .ok () ↔ ret = 0) ∧
    (set_tuner_bandwidth_result ret = .error (errorFromCode ret) ↔ ret ≠ 0) ∧
    (set_tuner_if_gain_result ret = .ok () ↔ ret = 0) ∧
    (set_tuner_if_gain_result ret = .error (errorFromCode ret) ↔ ret ≠ 0) ∧
    (set_tuner_gain_mode_result ret = .ok () ↔ ret = 0) ∧
    (set_tuner_gain_mode_result ret = .error (errorFromCode ret) ↔ ret ≠ 0) ∧
    (set_sample_rate_result ret = .ok () ↔ ret = 0) ∧
    (set_sample_rate_result ret = .error (errorFromCode ret) ↔ ret ≠ 0) ∧
    (set_test_mode_result ret = .ok () ↔ ret = 0) ∧
    (set_test_mode_result ret = .error (errorFromCode ret) ↔ ret ≠ 0) ∧
    (set_agc_mode_result ret = .ok () ↔ ret = 0) ∧
    (set_agc_mode_result ret = .error (errorFromCode ret) ↔ ret ≠ 0) ∧
    (set_direct_sampling_result ret = .ok () ↔ ret = 0) ∧
    (set_direct_sampling_result ret = .error (errorFromCode ret) ↔ ret ≠ 0) ∧
    (set_offset_tuning_result ret = .ok () ↔ ret = 0) ∧
    (set_offset_tuning_result ret = .error (errorFromCode ret) ↔ ret ≠ 0) ∧
    (reset_buffer_result ret = .ok () ↔ ret = 0) ∧
    (reset_buffer_result ret = .error (errorFromCode ret) ↔ ret ≠ 0) ∧
    (write_eeprom_result ret = .ok () ↔ 0 ≤ ret) ∧
    (write_eeprom_result ret = .error (errorFromCode ret) ↔ ret < 0) ∧
    (∀ buf, read_eeprom_result ret buf = .ok buf ↔ 0 ≤ ret) ∧
    (∀ buf, read_eeprom_result ret buf = .error (errorFromCode ret) ↔ ret < 0) ∧
    (get_center_freq_result ret = .ok ret.toNat ↔ 0 ≤ ret) ∧
    (get_center_freq_result ret = .error (errorFromCode ret) ↔ ret < 0) ∧
    (get_freq_correction_result ret = .ok ret ↔ 0 ≤ ret) ∧
    (get_freq_correction_result ret = .error (errorFromCode ret) ↔ ret < 0) ∧
    (get_tuner_gain_result ret = .ok ret ↔ 0 ≤ ret) ∧
    (get_tuner_gain_result ret = .error (errorFromCode ret) ↔ ret < 0) ∧
    (get_sample_rate_result ret = .ok ret.toNat ↔ 0 ≤ ret) ∧
    (get_sample_rate_result ret = .error (errorFromCode ret) ↔ ret < 0) ∧
    (get_direct_sampling_result ret = .ok (decide (ret ≠ 0)) ↔ 0 ≤ ret) ∧
    (get_direct_sampling_result ret = .error (errorFromCode ret) ↔ ret < 0) ∧
    (get_offset_tuning_result ret = .ok (decide (ret ≠ 0)) ↔ 0 ≤ ret) ∧
    (get_offset_tuning_result ret = .error (errorFromCode ret) ↔ ret < 0) := by
  repeat' apply And.intro
  all_goals
    (simp only [set_xtal_freq_result, set_center_freq_result, set_freq_correction_result,
      set_tuner_gain_result, set_tuner_bandwidth_result, set_tuner_if_gain_result,
      set_tuner_gain_mode_result, set_sample_rate_result, set_test_mode_result,
      set_agc_mode_result, set_direct_sampling_result, set_offset_tuning_result,
      reset_buffer_result, write_eeprom_result, read_eeprom_result,
      get_center_freq_result, get_freq_correction_result, get_tuner_gain_result,
      get_sample_rate_result, get_direct_sampling_result, get_offset_tuning_result]
     intros
     split <;> simp_all)

/-- C4: serialization fails with `StringValueTooLong` as soon as it reaches
a string over 35 UTF-16 code units, before writing that field; when any of
the three strings of a record is over the limit, `set_hw_info` returns that
error without invoking the EEPROM write; and any serialization failure
aborts `set_hw_info` before the write. -/
theorem serialize_too_long :
    (∀ (d : List Nat) (pos : Nat) (s : List Nat) (ss : List (List Nat)),
      35 < (encodeUtf16 s).length →
      serializeGo d pos (s :: ss) = .error Error.StringValueTooLong) ∧
    (∀ (info : HwInfo) (wr : Int),
      (35 < (encodeUtf16 info.manufact).length ∨ 35 < (encodeUtf16 info.product).length ∨
        35 < (encodeUtf16 info.serial).length) →
      set_hw_info_model info wr = (false, .error Error.StringValueTooLong)) ∧
    (∀ (info : HwInfo) (wr : Int) (e : Error),
      set_hw_info_buffer info = .error e →
      set_hw_info_model info wr = (false, .error e)) := by
  have hfirst : ∀ (d : List Nat) (pos : Nat) (s : List Nat) (ss : List (List Nat)),
      35 < (encodeUtf16 s).length →
      serializeGo d pos (s :: ss) = .error Error.StringValueTooLong := by
    intro d pos s ss hlong
    have hM : MAX_STR_SIZE = 35 := rfl
    simp only [serializeGo]
    rw [if_pos (by rw [hM]; omega)]
  refine ⟨hfirst, ?_, ?_⟩
  · intro info wr hlong
    have hw8 : (0 : Nat) + ([0x28, 0x32, info.vendor_id % 256, info.vendor_id / 256 % 256,
        info.product_id % 256, info.product_id / 256 % 256,
        if info.have_serial then 0xA5 else 0x00,
        (if info.remote_wakeup then 0x01 else 0x00)
          ||| (if info.enable_ir then 0x02 else 0x00)] : List Nat).length
        ≤ (List.replicate EEPROM_SIZE (0 : Nat)).length := by
      rw [List.length_replicate]
      simp only [List.length_cons, List.length_nil, EEPROM_SIZE]
      omega
    have hbuf : set_hw_info_buffer info = .error Error.StringValueTooLong := by
      show serializeGo
        (writeBytes (List.replicate EEPROM_SIZE 0) 0
          [0x28, 0x32, info.vendor_id % 256, info.vendor_id / 256 % 256,
           info.product_id % 256, info.product_id / 256 % 256,
           if info.have_serial then 0xA5 else 0x00,
           (if info.remote_wakeup then 0x01 else 0x00)
             ||| (if info.enable_ir then 0x02 else 0x00)])
        STR_OFFSET_START [info.manufact, info.product, info.serial]
        = .error Error.StringValueTooLong
      apply serializeGo_valueTooLong
      · rcases hlong with h | h | h
        · exact ⟨info.manufact, by simp, h⟩
        · exact ⟨info.product, by simp, h⟩
        · exact ⟨info.serial, by simp, h⟩
      · rw [writeBytes_length hw8, List.length_replicate]
        simp only [List.length_cons, List.length_nil, STR_OFFSET_START, EEPROM_SIZE]
        omega
    simp only [set_hw_info_model]
    rw [hbuf]
  · intro info wr e h
    simp only [set_hw_info_model]
    rw [h]

/-- Witness for C4's general abort property at a record with a 36-character
manufacturer string. -/
theorem serialize_too_long_witness :
    set_hw_info_model
      { vendor_id := 0, product_id := 0, manufact := List.replicate 36 65,
        product := [], serial := [], have_serial := false, enable_ir := false,
        remote_wakeup := false } 0
      = (false, .error Error.StringValueTooLong) :=
  serialize_too_long.2.1
    { vendor_id := 0, product_id := 0, manufact := List.replicate 36 65,
      product := [], serial := [], have_serial := false, enable_ir := false,
      remote_wakeup := false } 0 (Or.inl (by decide))

/-- C5: gain-list retrieval is a two-phase protocol: a non-positive count
fails with the count's mapped error without issuing the fill query; a
positive count followed by a non-positive fill status fails with the fill
status's mapped error; and only when both are positive is the count-element
gain list returned. -/
theorem get_tuner_gains_protocol :
    (∀ (count fillRet : Int) (fillVals : Nat → Int), count ≤ 0 →
      get_tuner_gains_model count fillRet fillVals
        = (false, .error (errorFromCode count))) ∧
    (∀ (count fillRet : Int) (fillVals : Nat → Int), 0 < count → fillRet ≤ 0 →
      get_tuner_gains_model count fillRet fillVals
        = (true, .error (errorFromCode fillRet))) ∧
    (∀ (count fillRet : Int) (fillVals : Nat → Int), 0 < count → 0 < fillRet →
      get_tuner_gains_model count fillRet fillVals
        = (true, .ok ((List.range count.toNat).map fillVals)) ∧
      ((List.range count.toNat).map fillVals).length = count.toNat) := by
  refine ⟨?_, ?_, ?_⟩ <;> intro count fillRet fillVals
  · intro h
    simp only [get_tuner_gains_model]
    rw [if_pos h]
  · intro h1 h2
    simp only [get_tuner_gains_model]
    rw [if_neg (by omega), if_pos h2]
  · intro h1 h2
    simp only [get_tuner_gains_model]
    rw [if_neg (by omega), if_neg (by omega)]
    exact ⟨rfl, by simp⟩

/-- C6: the tuner-type classification maps the integer codes 0 through 6 to
the seven variants in order, and every other integer code to a failure, not
to the `Unknown` variant. -/
theorem tuner_classification :
    RTLSDRTuner.tryFrom 0 = .ok RTLSDRTuner.Unknown ∧
    RTLSDRTuner.tryFrom 1 = .ok RTLSDRTuner.E4000 ∧
    RTLSDRTuner.tryFrom 2 = .ok RTLSDRTuner.FC0012 ∧
    RTLSDRTuner.tryFrom 3 = .ok RTLSDRTuner.FC0013 ∧
    RTLSDRTuner.tryFrom 4 = .ok RTLSDRTuner.FC2580 ∧
    RTLSDRTuner.tryFrom 5 = .ok RTLSDRTuner.R820T ∧
    RTLSDRTuner.tryFrom 6 = .ok RTLSDRTuner.R828D ∧
    (∀ v : Int, v < 0 ∨ 6 < v → RTLSDRTuner.tryFrom v = .error Error.Unknown) := by
  refine ⟨rfl, rfl, rfl, rfl, rfl, rfl, rfl, ?_⟩
  intro v hv
  simp only [RTLSDRTuner.tryFrom]
  iterate 7 rw [if_neg (by omega)]

/-- C7: header validation of `get_hw_info`: an image shorter than 9 bytes,
or whose first two bytes are not the magic pair 0x28, 0x32, is rejected
with `NoValidEEPROMHeader` regardless of the rest of the buffer. -/
theorem get_hw_info_header_invalid (data : List Nat)
    (h : data.length < 9 ∨ data.getD 0 0 ≠ 0x28 ∨ data.getD 1 0 ≠ 0x32) :
    get_hw_info_parse data = .err Error.NoValidEEPROMHeader := by
  simp only [get_hw_info_parse]
  by_cases h1 : data.length < STR_OFFSET_START
  · rw [if_pos h1]
  · rw [if_neg h1]
    have h9 : ¬data.length < 9 := h1
    rw [if_pos (by rcases h with h | h | h
                   · exact absurd h h9
                   · exact Or.inl h
                   · exact Or.inr h)]

set_option maxRecDepth 4000 in
/-- Witness for C7 at the all-zero 256-byte image, whose magic bytes are
wrong. -/
theorem get_hw_info_header_invalid_witness :
    get_hw_info_parse zeroBuf = .err Error.NoValidEEPROMHeader :=
  get_hw_info_header_invalid zeroBuf (Or.inr (Or.inl (by decide)))

/-- C8: the native-status-to-error mapping sends the sixteen codes -1..-16
one-to-one to sixteen distinct kinds and every other integer to `Unknown`. -/
theorem error_code_mapping :
    (errorFromCode (-1) = Error.Io ∧
     errorFromCode (-2) = Error.InvalidParam ∧
     errorFromCode (-3) = Error.Access ∧
     errorFromCode (-4) = Error.NoDevice ∧
     errorFromCode (-5) = Error.NotFound ∧
     errorFromCode (-6) = Error.Busy ∧
     errorFromCode (-7) = Error.Timeout ∧
     errorFromCode (-8) = Error.Overflow ∧
     errorFromCode (-9) = Error.Pipe ∧
     errorFromCode (-10) = Error.Interrupted ∧
     errorFromCode (-11) = Error.NoMem ∧
     errorFromCode (-12) = Error.NotSupported ∧
     errorFromCode (-13) = Error.NoValidEEPROMHeader ∧
     errorFromCode (-14) = Error.StringValueTooLong ∧
     errorFromCode (-15) = Error.StringDescriptorInvalid ∧
     errorFromCode (-16) = Error.StringDescriptorTooLong ∧
     ([Error.Io, Error.InvalidParam, Error.Access, Error.NoDevice, Error.NotFound,
       Error.Busy, Error.Timeout, Error.Overflow, Error.Pipe, Error.Interrupted,
       Error.NoMem, Error.NotSupported, Error.NoValidEEPROMHeader,
       Error.StringValueTooLong, Error.StringDescriptorInvalid,
       Error.StringDescriptorTooLong] : List Error).Nodup) ∧
    (∀ e : Int, e < -16 ∨ -1 < e → errorFromCode e = Error.Unknown) := by
  refine ⟨by decide, ?_⟩
  intro e he
  simp only [errorFromCode]
  iterate 16 rw [if_neg (by omega)]

/-- C9: the device-name-by-index query yields an absent result for a null
native name pointer and the name otherwise; its `Option` result type has no
error case, and presence of the result tracks presence of the native name
exactly. -/
theorem device_name_absent :
    get_device_name_model none = none ∧
    (∀ s, get_device_name_model (some s) = some s) ∧
    (∀ o, (get_device_name_model o).isSome = o.isSome) :=
  ⟨rfl, fun _ => rfl, fun o => by cases o <;> rfl⟩

/-- C10: for a record whose three strings each encode to at most 35 UTF-16
code units, serializing into a 256-byte buffer always succeeds: the
`StringDescriptorTooLong` branch is unreachable. -/
theorem serialize_within_bounds (info : HwInfo) (d : List Nat) (hd : d.length = 256)
    (lm : (encodeUtf16 info.manufact).length ≤ 35)
    (lp : (encodeUtf16 info.product).length ≤ 35)
    (ls : (encodeUtf16 info.serial).length ≤ 35) :
    ∃ d', serialize_string_descriptors d info = .ok d' := by
  show ∃ d', serializeGo d STR_OFFSET_START [info.manufact, info.product, info.serial]
    = .ok d'
  apply serializeGo_ok
  · intro x hx
    simp only [List.mem_cons, List.not_mem_nil, or_false] at hx
    rcases hx with rfl | rfl | rfl <;> assumption
  · rw [hd]
    simp only [List.length_cons, List.length_nil, STR_OFFSET_START]
    omega

set_option maxRecDepth 4000 in
/-- Witness for C10 at the example record and the all-zero 256-byte
buffer. -/
theorem serialize_within_bounds_witness :
    ∃ d', serialize_string_descriptors zeroBuf exInfo = .ok d' :=
  serialize_within_bounds exInfo zeroBuf (by simp [zeroBuf, EEPROM_SIZE])
    (by decide) (by decide) (by decide)

end Radion
